import Mathlib

/-!
Verification development for the film-release tracker
(`examples/multi_user_update.py`): a shallow embedding of the release-date
selector (`choose_gb_theatrical_date`, `parse_iso_date`) and the iCalendar
builder (`build_ics_events` with its nested `ics_escape` / `yyyymmdd`
helpers), together with theorems checking the specified behaviour.

Python strings are modelled as Lean `String` (`List Char` data); Python
dicts coming from JSON are modelled as structures whose optional keys are
`Option` fields; Python exceptions are modelled as `Option`/`none` results.
-/

namespace Films

/-- A Python `datetime.date`: plain year/month/day fields.  Validity
(`1 ≤ month ≤ 12`, `1 ≤ day ≤ daysInMonth`, `1 ≤ year ≤ 9999`) is enforced
by the constructing functions (`mkDate`, `fromisoformat10`), mirroring the
`datetime.date` constructor checks that raise `ValueError`. -/
structure PyDate where
  year : Nat
  month : Nat
  day : Nat
deriving DecidableEq, Repr

/-- Comparison `a <= b` on dates: lexicographic on (year, month, day),
exactly the order `datetime.date` implements. -/
def dateLe (a b : PyDate) : Bool :=
  if a.year = b.year then
    if a.month = b.month then decide (a.day ≤ b.day)
    else decide (a.month < b.month)
  else decide (a.year < b.year)

/-- Leap-year rule used by `datetime` (proleptic Gregorian). -/
def isLeap (y : Nat) : Bool :=
  y % 4 == 0 && (y % 100 != 0 || y % 400 == 0)

/-- Length of month `m` of year `y`, as in the internal days-in-month
table of `datetime` (callers only use `1 ≤ m ≤ 12`). -/
def daysInMonth (y m : Nat) : Nat :=
  if m = 2 then (if isLeap y then 29 else 28)
  else if m = 4 ∨ m = 6 ∨ m = 9 ∨ m = 11 then 30 else 31

/-- The in-range side conditions `datetime.date` enforces on construction. -/
def validDate (dt : PyDate) : Prop :=
  1 ≤ dt.month ∧ dt.month ≤ 12 ∧ 1 ≤ dt.day ∧ dt.day ≤ daysInMonth dt.year dt.month

/-- ASCII digit test (the character class `fromisoformat` and `int` accept
in the date fields). -/
def isDig (c : Char) : Bool := decide (48 ≤ c.toNat ∧ c.toNat ≤ 57)

/-- Value of an ASCII digit character. -/
def d2n (c : Char) : Nat := c.toNat - 48

/-- The `datetime.date(y, mo, d)` constructor: `none` models the
`ValueError` on out-of-range fields (`MINYEAR = 1`, `MAXYEAR = 9999`). -/
def mkDate (y mo d : Nat) : Option PyDate :=
  if 1 ≤ y ∧ y ≤ 9999 ∧ 1 ≤ mo ∧ mo ≤ 12 ∧ 1 ≤ d ∧ d ≤ daysInMonth y mo then
    some ⟨y, mo, d⟩
  else none

/-- Total day count of months `1..m` of year `y`. -/
def monthSum (y : Nat) : Nat → Nat
  | 0 => 0
  | m + 1 => monthSum y m + daysInMonth y (m + 1)

/-- Days in all years before year `y` (proleptic Gregorian). -/
def daysBeforeYear (y : Nat) : Nat :=
  365 * (y - 1) + (y - 1) / 4 - (y - 1) / 100 + (y - 1) / 400

/-- `date.toordinal()`: day number counting 0001-01-01 as day 1. -/
def toOrdinal (dt : PyDate) : Nat :=
  daysBeforeYear dt.year + monthSum dt.year (dt.month - 1) + dt.day

/-- The non-leap days-before-month table of `datetime`
(`_DAYS_BEFORE_MONTH`), realised via the non-leap year 1. -/
def daysBeforeMonthNL (m : Nat) : Nat := monthSum 1 (m - 1)

/-- The non-leap days-in-month table of `datetime` (`_DAYS_IN_MONTH`). -/
def daysInMonthNL (m : Nat) : Nat := daysInMonth 1 m

/-- `_ord2ymd` / `ord_to_ymd` of `datetime`: the proleptic-Gregorian date
of an ordinal (day 1 = 0001-01-01), by the 400/100/4/1-year decomposition
and month estimate exactly as CPython computes them. -/
def ordToYmd (nn : Nat) : Nat × Nat × Nat :=
  let n0 := nn - 1
  let n400 := n0 / 146097
  let r400 := n0 % 146097
  let n100 := r400 / 36524
  let r100 := r400 % 36524
  let n4 := r100 / 1461
  let r4 := r100 % 1461
  let n1 := r4 / 365
  let r1 := r4 % 365
  let year := n400 * 400 + 1 + n100 * 100 + n4 * 4 + n1
  if n1 = 4 ∨ n100 = 4 then (year - 1, 12, 31)
  else
    let month := (r1 + 50) / 32
    let preceding := daysBeforeMonthNL month
      + (if 2 < month ∧ n1 = 3 ∧ (n4 ≠ 24 ∨ n100 = 3) then 1 else 0)
    if r1 < preceding then
      (year, month - 1, r1 - (preceding - (daysInMonthNL (month - 1)
        + (if month - 1 = 2 ∧ n1 = 3 ∧ (n4 ≠ 24 ∨ n100 = 3) then 1 else 0))) + 1)
    else
      (year, month, r1 - preceding + 1)

/-- `iso_week1_monday` of `datetime`: the ordinal of the Monday starting
ISO week 1 of a year (weekday numbering has Monday = 0). -/
def isoWeek1Monday (iy : Nat) : Nat :=
  if 3 < (toOrdinal ⟨iy, 1, 1⟩ + 6) % 7 then
    toOrdinal ⟨iy, 1, 1⟩ + 7 - (toOrdinal ⟨iy, 1, 1⟩ + 6) % 7
  else
    toOrdinal ⟨iy, 1, 1⟩ - (toOrdinal ⟨iy, 1, 1⟩ + 6) % 7

/-- `iso_to_ymd` of `datetime` followed by the `date` constructor: an ISO
week date (year, week, weekday) to a Gregorian date, with the CPython
range checks — week 53 only for years starting on Thursday, or leap years
starting on Wednesday — and the final `datetime.date` validation (which
rejects, e.g., the spill past 9999-12-31). -/
def isoWeekToDate (iy w d : Nat) : Option PyDate :=
  if iy < 1 ∨ 9999 < iy then none
  else if (w = 0 ∨ 53 ≤ w) ∧ ¬(w = 53 ∧
      ((toOrdinal ⟨iy, 1, 1⟩ + 6) % 7 = 3 ∨
        ((toOrdinal ⟨iy, 1, 1⟩ + 6) % 7 = 2 ∧ isLeap iy = true))) then none
  else if d = 0 ∨ 8 ≤ d then none
  else
    match ordToYmd (isoWeek1Monday iy + (w - 1) * 7 + (d - 1)) with
    | (ry, rm, rd) => mkDate ry rm rd

/-- The `parse_digits` scan of the CPython parser: exactly `k` strict
ASCII digits accumulated onto `acc`, returning the value and the rest. -/
def readDigits : Nat → Nat → List Char → Option (Nat × List Char)
  | acc, 0, rest => some (acc, rest)
  | _, _ + 1, [] => none
  | acc, k + 1, c :: rest =>
    if isDig c then readDigits (10 * acc + d2n c) k rest else none

/-- The body of the CPython 3.11+ `parse_isoformat_date` after the year
and separator have been read: either an ISO week date (a `W`, two week
digits, and an optional weekday digit — separated by a dash exactly when
the year was) or a two-digit month and two-digit day (dash-separated
exactly when the year was).  As in the C parser, characters after a
complete read are ignored (the caller bounds the length), and the
resulting fields go through the `datetime.date` range checks. -/
def fromisoTail (y : Nat) (sep : Bool) (r2 : List Char) : Option PyDate :=
  if r2.head? = some 'W' then
    match readDigits 0 2 r2.tail with
    | none => none
    | some (w, r3) =>
      match r3 with
      | [] => isoWeekToDate y w 1
      | c :: r4 =>
        if sep then
          if c = '-' then
            match readDigits 0 1 r4 with
            | none => none
            | some (d, _) => isoWeekToDate y w d
          else none
        else
          match readDigits 0 1 (c :: r4) with
          | none => none
          | some (d, _) => isoWeekToDate y w d
  else
    match readDigits 0 2 r2 with
    | none => none
    | some (mo, r3) =>
      if sep then
        match r3 with
        | '-' :: r4 =>
          match readDigits 0 2 r4 with
          | none => none
          | some (d, _) => mkDate y mo d
        | _ => none
      else
        match readDigits 0 2 r3 with
        | none => none
        | some (d, _) => mkDate y mo d

/-- `datetime.date.fromisoformat` of CPython 3.11+ (the interpreter the
source requires via `datetime.UTC`), on the at-most-ten characters that
`parse_iso_date` passes it: strings of length 7, 8 or 10 only; four year
digits; a dash makes the format separated; then `fromisoTail` reads a
week date or a month-day pair.  Accepts extended `YYYY-MM-DD`, basic
`YYYYMMDD`, and the week dates `YYYY-Www`, `YYYY-Www-D`, `YYYYWww`,
`YYYYWwwD`; `none` models `ValueError`. -/
def fromisoformat10 (cs : List Char) : Option PyDate :=
  if cs.length = 7 ∨ cs.length = 8 ∨ cs.length = 10 then
    match readDigits 0 4 cs with
    | none => none
    | some (y, r1) =>
      if r1.head? = some '-' then fromisoTail y true r1.tail
      else fromisoTail y false r1
  else none

/-- `parse_iso_date(s)`: `datetime.date.fromisoformat(s[:10])`. -/
def parse_iso_date (s : String) : Option PyDate :=
  fromisoformat10 (s.data.take 10)

/-- One element of a `release_dates` list in the TMDb payload: the two keys
the selector reads, absent keys as `none`. -/
structure RDEntry where
  type : Option Nat
  release_date : Option String
deriving DecidableEq, Repr

/-- One element of the `results` list of the payload: region code plus its
release-date entries (a missing `release_dates` key defaults to `[]`,
as in `gb.get("release_dates", [])`). -/
structure Region where
  iso_3166_1 : Option String
  release_dates : List RDEntry
deriving DecidableEq, Repr

/-- The `for r in ...: if r.get("iso_3166_1") == "GB": gb = r; break` scan:
first entry whose region code is `"GB"`.  The payload is modelled by its
`results` list (a missing `results` key defaults to `[]`). -/
def findGB : List Region → Option Region
  | [] => none
  | r :: rs => if r.iso_3166_1 = some "GB" then some r else findGB rs

/-- The collection loop over `gb["release_dates"]`: keep entries of
theatrical type (3) with a truthy (non-empty) date string, parse each,
and skip (with a stderr warning, not modelled) any that fail to parse. -/
def theatricalDates (gb : Region) : List PyDate :=
  gb.release_dates.filterMap fun rd =>
    if rd.type = some 3 then
      match rd.release_date with
      | some s => if s.data.isEmpty then none else parse_iso_date s
      | none => none
    else none

/-- Insertion step for `pySort`. -/
def insertD (x : PyDate) : List PyDate → List PyDate
  | [] => [x]
  | y :: ys => if dateLe x y then x :: y :: ys else y :: insertD x ys

/-- `theatrical.sort()`: ascending sort.  Since list elements are compared
by value and `dateLe` is a total order on dates, the ascending ordering is
unique, so this insertion sort returns exactly the list that the stable
sort of Python does. -/
def pySort : List PyDate → List PyDate
  | [] => []
  | x :: xs => insertD x (pySort xs)

/-- Zero-padded decimal rendering, as in `f"{n:04d}"` / `f"{n:02d}"`. -/
def zfill (w : Nat) (n : Nat) : String :=
  String.mk (List.replicate (w - (toString n).length) '0') ++ toString n

/-- `date.isoformat()`: `YYYY-MM-DD`. -/
def isoformat (dt : PyDate) : String :=
  zfill 4 dt.year ++ "-" ++ zfill 2 dt.month ++ "-" ++ zfill 2 dt.day

/-- `choose_gb_theatrical_date(release_dates_payload, today)`: locate the GB
region, collect its parseable theatrical dates, and return the earliest
date on-or-after `today` (bucket `"upcoming"`) if one exists, otherwise the
earliest date overall (bucket `"released"`); `(None, None)` when there is
no GB entry or no usable theatrical date. -/
def choose_gb_theatrical_date (payload : List Region) (today : PyDate) :
    Option String × Option String :=
  match findGB payload with
  | none => (none, none)
  | some gb =>
    if (theatricalDates gb).isEmpty then (none, none)
    else
      match ((pySort (theatricalDates gb)).filter (fun d => dateLe today d)).head? with
      | some d => (some (isoformat d), some "upcoming")
      | none =>
        match (pySort (theatricalDates gb)).head? with
        | some d => (some (isoformat d), some "released")
        | none => (none, none)

/-- A classified movie as passed to the calendar builder: the dict fields
`build_ics_events` reads. -/
structure Movie where
  tmdb_id : Nat
  title : String
  release_date : String
  tmdb_url : String
deriving DecidableEq, Repr

/-- `s.split("-")` on the characters of a Python string: split at every
`'-'`, keeping empty pieces. -/
def splitDash : List Char → List (List Char)
  | [] => [[]]
  | c :: cs =>
    if c = '-' then [] :: splitDash cs
    else
      match splitDash cs with
      | [] => [[c]]
      | p :: ps => (c :: p) :: ps

/-- `int(piece)` on one piece of the split date string (pieces of a
`"-"`-split contain no sign, so this is a non-empty all-digits read;
`none` models the `ValueError`). -/
def pyIntDigits (cs : List Char) : Option Nat :=
  if cs ≠ [] ∧ cs.all isDig then
    some (cs.foldl (fun a c => 10 * a + d2n c) 0)
  else none

/-- `y, mo, d = map(int, m["release_date"].split("-"))`: `none` models the
`ValueError` on a wrong piece count or a non-numeric piece. -/
def splitYMD (s : String) : Option (Nat × Nat × Nat) :=
  match splitDash s.data with
  | [a, b, c] =>
    match pyIntDigits a, pyIntDigits b, pyIntDigits c with
    | some y, some mo, some d => some (y, mo, d)
    | _, _, _ => none
  | _ => none

/-- The calendar successor of a valid date: it advances the
proleptic-Gregorian ordinal by exactly one (lemma `toOrdinal_nextDay`),
so in range it is what `start + datetime.timedelta(days=1)` returns. -/
def nextDay (dt : PyDate) : PyDate :=
  if dt.day < daysInMonth dt.year dt.month then ⟨dt.year, dt.month, dt.day + 1⟩
  else if dt.month < 12 then ⟨dt.year, dt.month + 1, 1⟩
  else ⟨dt.year + 1, 1, 1⟩

/-- `start + datetime.timedelta(days=1)`: CPython adds one to the ordinal
and raises `OverflowError` when the sum exceeds the maximal ordinal
3652059 (that of `date.max` = 9999-12-31); in range the result is the
calendar successor `nextDay`.  `none` models the `OverflowError`, which
`build_ics_events` does not catch. -/
def addOneDay (dt : PyDate) : Option PyDate :=
  if toOrdinal dt + 1 ≤ 3652059 then some (nextDay dt) else none

/-- Python single-character `str.replace`: every occurrence of `c` becomes
`r`, scanning left to right over the original string. -/
def replaceChar (c : Char) (r : List Char) : List Char → List Char
  | [] => []
  | x :: xs => if x = c then r ++ replaceChar c r xs else x :: replaceChar c r xs

/-- The character-level body of `ics_escape`: the four chained `replace`
calls of the source, innermost (backslash) first. -/
def escData (s : List Char) : List Char :=
  replaceChar '\n' ['\\', 'n']
    (replaceChar ',' ['\\', ',']
      (replaceChar ';' ['\\', ';']
        (replaceChar '\\' ['\\', '\\'] s)))

/-- `ics_escape(s)`: the calendar text escaping as implemented:
`s.replace("\\","\\\\").replace(";","\\;").replace(",","\\,").replace("\n","\\n")`. -/
def ics_escape (s : String) : String := String.mk (escData s.data)

/-- Spec-side description of the escaping of one character: backslash,
semicolon, comma and newline get a backslash prefix (newline rendered as
the two characters backslash-`n`); everything else is untouched. -/
def escCharSpec (c : Char) : List Char :=
  if c = '\\' then ['\\', '\\']
  else if c = ';' then ['\\', ';']
  else if c = ',' then ['\\', ',']
  else if c = '\n' then ['\\', 'n']
  else [c]

/-- `escCharSpec` applied characterwise to a whole string. -/
def escSpec : List Char → List Char
  | [] => []
  | c :: cs => escCharSpec c ++ escSpec cs

/-- The stable identifier of the event, an f-string in the source:
`tmdb-`, the catalog id, `-`, the username, `@film-release-tracker`. -/
def event_uid (tmdb_id : Nat) (username : String) : String :=
  "tmdb-" ++ toString tmdb_id ++ "-" ++ username ++ "@film-release-tracker"

/-- `f"{dt.year:04d}{dt.month:02d}{dt.day:02d}"` (the nested `yyyymmdd`). -/
def yyyymmdd (dt : PyDate) : String :=
  zfill 4 dt.year ++ zfill 2 dt.month ++ zfill 2 dt.day

/-- The per-movie body of the event loop in `build_ics_events`: the ten
lines appended for one movie; `none` where the date unpacking, the
`datetime.date` constructor, or the `timedelta` addition raises. -/
def eventLines (dtstamp_utc username : String) (m : Movie) : Option (List String) :=
  match splitYMD m.release_date with
  | none => none
  | some (y, mo, d) =>
    match mkDate y mo d with
    | none => none
    | some start =>
      match addOneDay start with
      | none => none
      | some endd =>
        some ["BEGIN:VEVENT",
              "UID:" ++ ics_escape (event_uid m.tmdb_id username),
              "DTSTAMP:" ++ dtstamp_utc,
              "DTSTART;VALUE=DATE:" ++ yyyymmdd start,
              "DTEND;VALUE=DATE:" ++ yyyymmdd endd,
              "SUMMARY:" ++ ics_escape (m.title ++ " (UK theatrical release)"),
              "DESCRIPTION:" ++ ics_escape ("TMDb: " ++ m.tmdb_url),
              "STATUS:CONFIRMED",
              "TRANSP:TRANSPARENT",
              "END:VEVENT"]

/-- The event loop of `build_ics_events`: the line blocks of each movie in
order; a failure on any movie aborts the whole build (the Python exception
propagates out of the function). -/
def eventLoop (dtstamp_utc username : String) : List Movie → Option (List (List String))
  | [] => some []
  | m :: ms =>
    match eventLines dtstamp_utc username m, eventLoop dtstamp_utc username ms with
    | some e, some es => some (e :: es)
    | _, _ => none

/-- Concatenation of the per-movie line blocks, as the loop appends them. -/
def concatLines : List (List String) → List String
  | [] => []
  | l :: ls => l ++ concatLines ls

/-- An apostrophe (the character used in the `X-WR-CALNAME` header line). -/
def sQ : String := String.singleton '\x27'

/-- The seven header lines of the calendar document. -/
def calHeader (username : String) : List String :=
  ["BEGIN:VCALENDAR",
   "VERSION:2.0",
   "PRODID:-//Film Release Tracker//" ++ username ++ "//EN",
   "CALSCALE:GREGORIAN",
   "METHOD:PUBLISH",
   "X-WR-CALNAME:" ++ username ++ sQ ++ "s Film Releases",
   "X-WR-CALDESC:UK theatrical releases tracked by " ++ username]

/-- `"\n".join(lines)`. -/
def joinLines : List String → String
  | [] => ""
  | [l] => l
  | l :: ls => l ++ "\n" ++ joinLines ls

/-- `build_ics_events(movies, dtstamp_utc, username)`: the header lines,
the event lines of each movie in order, and the closing line, joined with
newlines and newline-terminated.  `none` models the uncaught `ValueError`
on a malformed `release_date`. -/
def build_ics_events (movies : List Movie) (dtstamp_utc username : String) :
    Option String :=
  match eventLoop dtstamp_utc username movies with
  | none => none
  | some evs =>
    some (joinLines (calHeader username ++ concatLines evs ++ ["END:VCALENDAR"]) ++ "\n")

/-- Modelled from the spec: the event identifier of the generic
(non-personalized) builder — `"<prefix>-<catalogId>@<namespace>"`, with no
user segment.  The single-user builder itself (the `bin/update` script of
the repository) is not among the sources given; only its tests are. -/
def event_uid_nouser (tmdb_id : Nat) : String :=
  "tmdb-" ++ toString tmdb_id ++ "@film-release-tracker"

/-- Modelled from the spec: per-movie event lines of the generic builder —
identical to the personalized ones except for the identifier, which has no
user segment. -/
def eventLines_nouser (dtstamp_utc : String) (m : Movie) : Option (List String) :=
  match splitYMD m.release_date with
  | none => none
  | some (y, mo, d) =>
    match mkDate y mo d with
    | none => none
    | some start =>
      match addOneDay start with
      | none => none
      | some endd =>
        some ["BEGIN:VEVENT",
              "UID:" ++ ics_escape (event_uid_nouser m.tmdb_id),
              "DTSTAMP:" ++ dtstamp_utc,
              "DTSTART;VALUE=DATE:" ++ yyyymmdd start,
              "DTEND;VALUE=DATE:" ++ yyyymmdd endd,
              "SUMMARY:" ++ ics_escape (m.title ++ " (UK theatrical release)"),
              "DESCRIPTION:" ++ ics_escape ("TMDb: " ++ m.tmdb_url),
              "STATUS:CONFIRMED",
              "TRANSP:TRANSPARENT",
              "END:VEVENT"]

/-- Modelled from the spec: the event loop of the generic builder. -/
def eventLoop_nouser (dtstamp_utc : String) : List Movie → Option (List (List String))
  | [] => some []
  | m :: ms =>
    match eventLines_nouser dtstamp_utc m, eventLoop_nouser dtstamp_utc ms with
    | some e, some es => some (e :: es)
    | _, _ => none

/-- Modelled from the spec: the header of the generic document — product
id without a user, and no personalized display-name/description lines (the
headers its tests assert on). -/
def calHeader_nouser : List String :=
  ["BEGIN:VCALENDAR",
   "VERSION:2.0",
   "PRODID:-//Film Release Tracker//EN",
   "CALSCALE:GREGORIAN",
   "METHOD:PUBLISH"]

/-- Modelled from the spec: the generic (no user identifier) calendar
builder of the `bin/update` script of the repository, absent from the
sources given. -/
def build_ics_events_nouser (movies : List Movie) (dtstamp_utc : String) :
    Option String :=
  match eventLoop_nouser dtstamp_utc movies with
  | none => none
  | some evs =>
    some (joinLines (calHeader_nouser ++ concatLines evs ++ ["END:VCALENDAR"]) ++ "\n")

/-- Modelled from the spec: the Calendar Builder contract
`build(movies, timestampUTC, userId?)` — the optional user identifier
selects the personalized builder when present and the generic one when
absent. -/
def build_spec (movies : List Movie) (dtstamp_utc : String) :
    Option String → Option String
  | some u => build_ics_events movies dtstamp_utc u
  | none => build_ics_events_nouser movies dtstamp_utc

/-- The document text viewed as a concatenation of newline-terminated
lines (`joinLines ls ++ "\n"` equals `linesFlat ls` for non-empty `ls`;
used to reason about the document body). -/
def linesFlat : List String → String
  | [] => ""
  | l :: ls => l ++ "\n" ++ linesFlat ls

example : parse_iso_date "2026-04-17T00:00:00.000Z" = some ⟨2026, 4, 17⟩ := rfl
example : parse_iso_date "2026-12-25" = some ⟨2026, 12, 25⟩ := rfl
example : parse_iso_date "2024-02-29T00:00:00.000Z" = some ⟨2024, 2, 29⟩ := rfl
example : parse_iso_date "2023-02-29" = none := rfl
example : parse_iso_date "not-a-date" = none := rfl
example : parse_iso_date "20260417" = some ⟨2026, 4, 17⟩ := rfl
example : parse_iso_date "20260417T000000Z" = some ⟨2026, 4, 17⟩ := rfl
example : parse_iso_date "2026041712" = some ⟨2026, 4, 17⟩ := rfl
example : parse_iso_date "2026-W15" = some ⟨2026, 4, 6⟩ := rfl
example : parse_iso_date "2026-W15-1" = some ⟨2026, 4, 6⟩ := rfl
example : parse_iso_date "2026-W15-7" = some ⟨2026, 4, 12⟩ := rfl
example : parse_iso_date "2026W15" = some ⟨2026, 4, 6⟩ := rfl
example : parse_iso_date "2026W151" = some ⟨2026, 4, 6⟩ := rfl
example : parse_iso_date "2026-W53-7" = some ⟨2027, 1, 3⟩ := rfl
example : parse_iso_date "2020-W53-1" = some ⟨2020, 12, 28⟩ := rfl
example : parse_iso_date "2025-W53-1" = none := rfl
example : parse_iso_date "9999-W52-5" = some ⟨9999, 12, 31⟩ := rfl
example : parse_iso_date "9999-W52-6" = none := rfl
example : parse_iso_date "0001-W01-1" = some ⟨1, 1, 1⟩ := rfl
example : parse_iso_date "2026-04" = none := rfl
example : parse_iso_date "2026-041" = none := rfl
example : parse_iso_date "2026-W151x" = none := rfl
example : parse_iso_date "2026-W151" = none := rfl
example : parse_iso_date "202604171" = none := rfl
example : parse_iso_date "2026-4-17" = none := rfl
example : parse_iso_date "0000-01-01" = none := rfl
example : parse_iso_date "2026w151" = none := rfl
example : toOrdinal ⟨9999, 12, 31⟩ = 3652059 := rfl
example : addOneDay ⟨9999, 12, 31⟩ = none := rfl
example : addOneDay ⟨2026, 4, 30⟩ = some ⟨2026, 5, 1⟩ := rfl
example : eventLines "T" "alice" ⟨1, "A", "9999-12-31", "u"⟩ = none := rfl
example : isoformat ⟨2026, 4, 17⟩ = "2026-04-17" := rfl

example :
    choose_gb_theatrical_date
      [⟨some "GB", [⟨some 3, some "2026-04-17T00:00:00.000Z"⟩]⟩] ⟨2026, 1, 1⟩
    = (some "2026-04-17", some "upcoming") := rfl

example :
    choose_gb_theatrical_date
      [⟨some "GB", [⟨some 3, some "2026-04-17T00:00:00.000Z"⟩]⟩] ⟨2026, 5, 1⟩
    = (some "2026-04-17", some "released") := rfl

example :
    choose_gb_theatrical_date
      [⟨some "US", [⟨some 3, some "2026-04-17T00:00:00.000Z"⟩]⟩] ⟨2026, 1, 1⟩
    = (none, none) := rfl

example :
    choose_gb_theatrical_date
      [⟨some "GB", [⟨some 4, some "2026-04-17T00:00:00.000Z"⟩]⟩] ⟨2026, 1, 1⟩
    = (none, none) := rfl

example :
    choose_gb_theatrical_date
      [⟨some "GB", [⟨some 3, some "2026-05-01T00:00:00.000Z"⟩,
                    ⟨some 3, some "2026-04-17T00:00:00.000Z"⟩]⟩] ⟨2026, 1, 1⟩
    = (some "2026-04-17", some "upcoming") := rfl

example : choose_gb_theatrical_date [] ⟨2026, 1, 1⟩ = (none, none) := rfl

/-! ### Pure facts about the date order and the sort -/

lemma dateLe_iff (a b : PyDate) : dateLe a b = true ↔
    (a.year < b.year ∨ (a.year = b.year ∧
      (a.month < b.month ∨ (a.month = b.month ∧ a.day ≤ b.day)))) := by
  unfold dateLe
  split_ifs with h1 h2 <;> simp only [decide_eq_true_eq] <;> omega

lemma dateLe_refl (a : PyDate) : dateLe a a = true := by
  rw [dateLe_iff]; omega

lemma dateLe_trans {a b c : PyDate} (h1 : dateLe a b = true) (h2 : dateLe b c = true) :
    dateLe a c = true := by
  rw [dateLe_iff] at *; omega

lemma dateLe_of_not {a b : PyDate} (h : ¬ dateLe a b = true) : dateLe b a = true := by
  rw [dateLe_iff] at *; omega

lemma mem_insertD {a x : PyDate} {l : List PyDate} :
    a ∈ insertD x l ↔ a = x ∨ a ∈ l := by
  induction l with
  | nil => simp [insertD]
  | cons y ys ih =>
    unfold insertD
    split
    · simp [List.mem_cons]
    · simp only [List.mem_cons, ih]; tauto

lemma mem_pySort {a : PyDate} {l : List PyDate} : a ∈ pySort l ↔ a ∈ l := by
  induction l with
  | nil => simp [pySort]
  | cons x xs ih => simp only [pySort, mem_insertD, ih, List.mem_cons]

lemma sorted_insertD {x : PyDate} {l : List PyDate}
    (h : l.Pairwise (fun a b => dateLe a b = true)) :
    (insertD x l).Pairwise (fun a b => dateLe a b = true) := by
  induction l with
  | nil => simp [insertD]
  | cons y ys ih =>
    unfold insertD
    rcases List.pairwise_cons.mp h with ⟨hy, hys⟩
    split
    · rename_i hxy
      refine List.pairwise_cons.mpr ⟨?_, h⟩
      intro z hz
      rcases List.mem_cons.mp hz with rfl | hz
      · exact hxy
      · exact dateLe_trans hxy (hy z hz)
    · rename_i hxy
      refine List.pairwise_cons.mpr ⟨?_, ih hys⟩
      intro z hz
      rcases mem_insertD.mp hz with rfl | hz
      · exact dateLe_of_not hxy
      · exact hy z hz

lemma sorted_pySort (l : List PyDate) :
    (pySort l).Pairwise (fun a b => dateLe a b = true) := by
  induction l with
  | nil => simp [pySort]
  | cons x xs ih => exact sorted_insertD ih

lemma pySort_ne_nil {l : List PyDate} (h : l ≠ []) : pySort l ≠ [] := by
  cases l with
  | nil => exact absurd rfl h
  | cons x xs =>
    have hx : x ∈ pySort (x :: xs) := mem_pySort.mpr (List.mem_cons_self x xs)
    exact List.ne_nil_of_mem hx

lemma head_min {m : PyDate} {l : List PyDate}
    (h : l.Pairwise (fun a b => dateLe a b = true)) (hm : l.head? = some m) :
    ∀ x ∈ l, dateLe m x = true := by
  cases l with
  | nil => simp at hm
  | cons y ys =>
    obtain rfl : y = m := by simpa using hm
    intro x hx
    rcases List.mem_cons.mp hx with rfl | hx
    · exact dateLe_refl x
    · exact (List.pairwise_cons.mp h).1 x hx

lemma mem_filter_pySort {x : PyDate} {l : List PyDate} {p : PyDate → Bool} :
    x ∈ (pySort l).filter p ↔ x ∈ l.filter p := by
  simp [List.mem_filter, mem_pySort]

/-- Shared characterization of the selector once a GB entry is found:
if some theatrical date is on-or-after `today`, the result is the minimum
such date with bucket `"upcoming"`; otherwise (and the theatrical list is
non-empty) the minimum theatrical date overall with bucket `"released"`. -/
lemma choose_spec (payload : List Region) (today : PyDate) (gb : Region)
    (hgb : findGB payload = some gb) :
    ((theatricalDates gb).filter (fun d => dateLe today d) ≠ [] →
      ∃ m, m ∈ (theatricalDates gb).filter (fun d => dateLe today d) ∧
        (∀ x ∈ (theatricalDates gb).filter (fun d => dateLe today d), dateLe m x = true) ∧
        choose_gb_theatrical_date payload today = (some (isoformat m), some "upcoming"))
    ∧ ((theatricalDates gb).filter (fun d => dateLe today d) = [] →
        theatricalDates gb ≠ [] →
      ∃ m, m ∈ theatricalDates gb ∧ (∀ x ∈ theatricalDates gb, dateLe m x = true) ∧
        choose_gb_theatrical_date payload today = (some (isoformat m), some "released")) := by
  constructor
  · intro hf
    have hne : theatricalDates gb ≠ [] := by
      intro h0
      exact hf (by simp [h0])
    have hEF : (theatricalDates gb).isEmpty = false := by
      cases h : theatricalDates gb with
      | nil => exact absurd h hne
      | cons a l => rfl
    obtain ⟨x, hx⟩ : ∃ x, x ∈ (theatricalDates gb).filter (fun d => dateLe today d) := by
      cases h : (theatricalDates gb).filter (fun d => dateLe today d) with
      | nil => exact absurd h hf
      | cons a l => exact ⟨a, by simp [h]⟩
    have hx' : x ∈ (pySort (theatricalDates gb)).filter (fun d => dateLe today d) :=
      mem_filter_pySort.mpr hx
    cases hsf : (pySort (theatricalDates gb)).filter (fun d => dateLe today d) with
    | nil => rw [hsf] at hx'; simp at hx'
    | cons m rest =>
      refine ⟨m, ?_, ?_, ?_⟩
      · exact mem_filter_pySort.mp (by rw [hsf]; exact List.mem_cons_self m rest)
      · intro z hz
        have hz' : z ∈ (pySort (theatricalDates gb)).filter (fun d => dateLe today d) :=
          mem_filter_pySort.mpr hz
        rw [hsf] at hz'
        have hp : (m :: rest).Pairwise (fun a b => dateLe a b = true) := by
          rw [← hsf]; exact (sorted_pySort (theatricalDates gb)).filter _
        exact head_min hp rfl z hz'
      · simp only [choose_gb_theatrical_date, hgb, hEF, Bool.false_eq_true, if_false, hsf]
        rfl
  · intro hf hne
    have hEF : (theatricalDates gb).isEmpty = false := by
      cases h : theatricalDates gb with
      | nil => exact absurd h hne
      | cons a l => rfl
    have hsf : (pySort (theatricalDates gb)).filter (fun d => dateLe today d) = [] := by
      cases h : (pySort (theatricalDates gb)).filter (fun d => dateLe today d) with
      | nil => rfl
      | cons a l =>
        have : a ∈ (theatricalDates gb).filter (fun d => dateLe today d) :=
          mem_filter_pySort.mp (by rw [h]; exact List.mem_cons_self a l)
        rw [hf] at this; simp at this
    cases hs : pySort (theatricalDates gb) with
    | nil => exact absurd hs (pySort_ne_nil hne)
    | cons m rest =>
      refine ⟨m, ?_, ?_, ?_⟩
      · exact mem_pySort.mp (by rw [hs]; exact List.mem_cons_self m rest)
      · intro z hz
        have hz' : z ∈ pySort (theatricalDates gb) := mem_pySort.mpr hz
        rw [hs] at hz'
        have hp : (m :: rest).Pairwise (fun a b => dateLe a b = true) := by
          rw [← hs]; exact sorted_pySort (theatricalDates gb)
        exact head_min hp rfl z hz'
      · simp only [choose_gb_theatrical_date, hgb, hEF, Bool.false_eq_true, if_false]
        rw [hsf, hs]
        rfl

lemma mkDate_valid {y mo d : Nat} {dt : PyDate} (h : mkDate y mo d = some dt) :
    validDate dt ∧ 1 ≤ dt.year ∧ dt.year ≤ 9999 := by
  unfold mkDate at h
  split_ifs at h with hr
  obtain rfl := Option.some.inj h
  exact ⟨⟨hr.2.2.1, hr.2.2.2.1, hr.2.2.2.2.1, hr.2.2.2.2.2⟩, hr.1, hr.2.1⟩

lemma isoWeekToDate_valid {iy w d : Nat} {dt : PyDate}
    (h : isoWeekToDate iy w d = some dt) :
    validDate dt ∧ 1 ≤ dt.year ∧ dt.year ≤ 9999 := by
  unfold isoWeekToDate at h
  split_ifs at h
  all_goals
    first
    | exact Option.noConfusion h
    | (rcases hq : ordToYmd (isoWeek1Monday iy + (w - 1) * 7 + (d - 1)) with ⟨ry, rm, rd⟩
       rw [hq] at h
       exact mkDate_valid h)

lemma fromisoTail_valid {y : Nat} {sep : Bool} {r2 : List Char} {dt : PyDate}
    (h : fromisoTail y sep r2 = some dt) :
    validDate dt ∧ 1 ≤ dt.year ∧ dt.year ≤ 9999 := by
  unfold fromisoTail at h
  repeat'
    first
    | exact isoWeekToDate_valid h
    | exact mkDate_valid h
    | exact Option.noConfusion h
    | split at h

lemma fromisoformat10_valid {cs : List Char} {dt : PyDate}
    (h : fromisoformat10 cs = some dt) :
    validDate dt ∧ 1 ≤ dt.year ∧ dt.year ≤ 9999 := by
  unfold fromisoformat10 at h
  repeat'
    first
    | exact fromisoTail_valid h
    | exact Option.noConfusion h
    | split at h

lemma theatrical_valid {gb : Region} {dt : PyDate} (h : dt ∈ theatricalDates gb) :
    validDate dt ∧ 1 ≤ dt.year ∧ dt.year ≤ 9999 := by
  unfold theatricalDates at h
  obtain ⟨rd, _, heq⟩ := List.mem_filterMap.mp h
  split at heq
  · split at heq
    · split at heq
      · exact absurd heq (by simp)
      · exact fromisoformat10_valid heq
    · exact absurd heq (by simp)
  · exact absurd heq (by simp)

/-- C3: the selector returns `(None, None)` when the payload has no GB
region entry, and when the GB entry has no theatrical-typed (type 3)
release-date entry. -/
theorem claim_C3 (payload : List Region) (today : PyDate) :
    (findGB payload = none → choose_gb_theatrical_date payload today = (none, none))
    ∧ (∀ gb, findGB payload = some gb →
        (∀ rd ∈ gb.release_dates, rd.type ≠ some 3) →
        choose_gb_theatrical_date payload today = (none, none)) := by
  constructor
  · intro h
    simp [choose_gb_theatrical_date, h]
  · intro gb hgb hno
    have hts : theatricalDates gb = [] := by
      unfold theatricalDates
      rw [List.filterMap_eq_nil_iff]
      intro rd hrd
      simp only [if_neg (hno rd hrd)]
    simp [choose_gb_theatrical_date, hgb, hts]

theorem claim_C3_witness :
    choose_gb_theatrical_date
        [⟨some "US", [⟨some 3, some "2026-04-17T00:00:00.000Z"⟩]⟩] ⟨2026, 1, 1⟩
      = (none, none)
    ∧ choose_gb_theatrical_date
        [⟨some "GB", [⟨some 4, some "2026-04-17T00:00:00.000Z"⟩]⟩] ⟨2026, 1, 1⟩
      = (none, none) :=
  ⟨(claim_C3 _ _).1 rfl,
   (claim_C3 _ _).2 ⟨some "GB", [⟨some 4, some "2026-04-17T00:00:00.000Z"⟩]⟩ rfl
     (by decide)⟩

/-- C10: the result of the selector is never partially null: it is either
`(None, None)` or the ISO rendering of a valid calendar date together with
a bucket that is exactly `"upcoming"` or `"released"`. -/
theorem claim_C10 (payload : List Region) (today : PyDate) :
    choose_gb_theatrical_date payload today = (none, none) ∨
    ∃ dt b, choose_gb_theatrical_date payload today = (some (isoformat dt), some b) ∧
      (b = "upcoming" ∨ b = "released") ∧ validDate dt ∧ 1 ≤ dt.year ∧ dt.year ≤ 9999 := by
  cases hf : findGB payload with
  | none => exact Or.inl (by simp [choose_gb_theatrical_date, hf])
  | some gb =>
    by_cases he : theatricalDates gb = []
    · exact Or.inl (by simp [choose_gb_theatrical_date, hf, he])
    · by_cases hfut : (theatricalDates gb).filter (fun d => dateLe today d) = []
      · obtain ⟨m, hm, _, heq⟩ := (choose_spec payload today gb hf).2 hfut he
        exact Or.inr ⟨m, "released", heq, Or.inr rfl, theatrical_valid hm⟩
      · obtain ⟨m, hm, _, heq⟩ := (choose_spec payload today gb hf).1 hfut
        have hm' : m ∈ theatricalDates gb := (List.mem_filter.mp hm).1
        exact Or.inr ⟨m, "upcoming", heq, Or.inl rfl, theatrical_valid hm'⟩

/-! ### Facts about the escaping -/

lemma replaceChar_append (c : Char) (r a b : List Char) :
    replaceChar c r (a ++ b) = replaceChar c r a ++ replaceChar c r b := by
  induction a with
  | nil => rfl
  | cons x xs ih =>
    simp only [List.cons_append, replaceChar, ih]
    split <;> simp [List.append_assoc, ih]

lemma escData_cons (x : Char) (xs : List Char) :
    escData (x :: xs) = escCharSpec x ++ escData xs := by
  by_cases h1 : x = '\\'
  · subst h1; rfl
  · by_cases h2 : x = ';'
    · subst h2; rfl
    · by_cases h3 : x = ','
      · subst h3; rfl
      · by_cases h4 : x = '\n'
        · subst h4; rfl
        · simp [escData, replaceChar, escCharSpec, h1, h2, h3, h4]

lemma escData_eq_escSpec (s : List Char) : escData s = escSpec s := by
  induction s with
  | nil => rfl
  | cons x xs ih => rw [escData_cons, ih]; rfl

lemma escSpec_append (a b : List Char) :
    escSpec (a ++ b) = escSpec a ++ escSpec b := by
  induction a with
  | nil => rfl
  | cons x xs ih =>
    show escCharSpec x ++ escSpec (xs ++ b) = (escCharSpec x ++ escSpec xs) ++ escSpec b
    rw [ih, List.append_assoc]

lemma length_le_escSpec (l : List Char) : l.length ≤ (escSpec l).length := by
  induction l with
  | nil => simp [escSpec]
  | cons x xs ih =>
    have hx : 1 ≤ (escCharSpec x).length := by
      unfold escCharSpec
      split_ifs <;> simp
    simp only [escSpec, List.length_append, List.length_cons]
    omega

lemma ics_escape_append (a b : String) :
    ics_escape (a ++ b) = ics_escape a ++ ics_escape b := by
  show String.mk (escData (a.data ++ b.data)) = String.mk (escData a.data ++ escData b.data)
  rw [escData_eq_escSpec, escData_eq_escSpec, escData_eq_escSpec, escSpec_append]

/-! ### The claims about escaping and date parsing -/

/-- C4: `ics_escape` rewrites every character by the backslash-prefix rule
(backslash, semicolon, comma doubled/prefixed; newline becomes
backslash-`n`; all else unchanged); the builder applies it to the UID,
summary and description fields before insertion; and the title
`"Test; Movie, Part 2"` yields the summary text
`"Test\; Movie\, Part 2 (UK theatrical release)"`. -/
theorem claim_C4 :
    (∀ s : String, (ics_escape s).data = escSpec s.data)
    ∧ (∀ (ts u : String) (m : Movie) (lines : List String),
        eventLines ts u m = some lines →
          lines[5]? = some ("SUMMARY:" ++ ics_escape (m.title ++ " (UK theatrical release)"))
          ∧ lines[1]? = some ("UID:" ++ ics_escape (event_uid m.tmdb_id u))
          ∧ lines[6]? = some ("DESCRIPTION:" ++ ics_escape ("TMDb: " ++ m.tmdb_url)))
    ∧ ics_escape ("Test; Movie, Part 2" ++ " (UK theatrical release)")
        = "Test\\; Movie\\, Part 2 (UK theatrical release)" := by
  refine ⟨fun s => escData_eq_escSpec s.data, ?_, rfl⟩
  intro ts u m lines h
  unfold eventLines at h
  split at h
  · exact absurd h (by simp)
  · split at h
    · exact absurd h (by simp)
    · split at h
      · exact absurd h (by simp)
      · obtain rfl := Option.some.inj h
        exact ⟨rfl, rfl, rfl⟩

theorem claim_C4_witness :
    ics_escape ("Test; Movie, Part 2" ++ " (UK theatrical release)")
      = "Test\\; Movie\\, Part 2 (UK theatrical release)"
    ∧ ((eventLines "20260101T000000Z" "alice"
          ⟨123, "Test; Movie, Part 2", "2026-04-17",
            "https://www.themoviedb.org/movie/123"⟩).getD [])[5]?
        = some ("SUMMARY:" ++ ics_escape ("Test; Movie, Part 2" ++ " (UK theatrical release)")) :=
  ⟨claim_C4.2.2,
   (claim_C4.2.1 "20260101T000000Z" "alice"
      ⟨123, "Test; Movie, Part 2", "2026-04-17", "https://www.themoviedb.org/movie/123"⟩
      ((eventLines "20260101T000000Z" "alice"
          ⟨123, "Test; Movie, Part 2", "2026-04-17",
            "https://www.themoviedb.org/movie/123"⟩).getD []) rfl).1⟩

/-- C6: date parsing accepts a bare ten-character calendar date and the
same date with any time-and-zone suffix appended, and both parse to the
calendar date given by the first ten characters. -/
theorem claim_C6 :
    (∀ (ds : List Char) (dt : PyDate), ds.length = 10 → fromisoformat10 ds = some dt →
      parse_iso_date (String.mk ds) = some dt
      ∧ ∀ rest : List Char, parse_iso_date (String.mk (ds ++ rest)) = some dt)
    ∧ parse_iso_date "2026-04-17T00:00:00.000Z" = some ⟨2026, 4, 17⟩
    ∧ parse_iso_date "2026-12-25" = some ⟨2026, 12, 25⟩ := by
  refine ⟨?_, rfl, rfl⟩
  intro ds dt h10 hp
  constructor
  · show fromisoformat10 (ds.take 10) = some dt
    rw [← h10, List.take_length]
    exact hp
  · intro rest
    show fromisoformat10 ((ds ++ rest).take 10) = some dt
    rw [← h10, List.take_left]
    exact hp

theorem claim_C6_witness :
    parse_iso_date (String.mk ("2026-04-17".data ++ "T00:00:00.000Z".data))
      = some ⟨2026, 4, 17⟩ :=
  (claim_C6.1 "2026-04-17".data ⟨2026, 4, 17⟩ rfl rfl).2 "T00:00:00.000Z".data

/-! ### Calendar arithmetic: one day after -/

lemma monthSum_twelve (y : Nat) : monthSum y 12 = 365 + (if isLeap y then 1 else 0) := by
  have e12 : monthSum y 12 = monthSum y 11 + daysInMonth y 12 := rfl
  have e11 : monthSum y 11 = monthSum y 10 + daysInMonth y 11 := rfl
  have e10 : monthSum y 10 = monthSum y 9 + daysInMonth y 10 := rfl
  have e9 : monthSum y 9 = monthSum y 8 + daysInMonth y 9 := rfl
  have e8 : monthSum y 8 = monthSum y 7 + daysInMonth y 8 := rfl
  have e7 : monthSum y 7 = monthSum y 6 + daysInMonth y 7 := rfl
  have e6 : monthSum y 6 = monthSum y 5 + daysInMonth y 6 := rfl
  have e5 : monthSum y 5 = monthSum y 4 + daysInMonth y 5 := rfl
  have e4 : monthSum y 4 = monthSum y 3 + daysInMonth y 4 := rfl
  have e3 : monthSum y 3 = monthSum y 2 + daysInMonth y 3 := rfl
  have e2 : monthSum y 2 = monthSum y 1 + daysInMonth y 2 := rfl
  have e1 : monthSum y 1 = monthSum y 0 + daysInMonth y 1 := rfl
  have e0 : monthSum y 0 = 0 := rfl
  have d1 : daysInMonth y 1 = 31 := by simp [daysInMonth]
  have d2 : daysInMonth y 2 = if isLeap y then 29 else 28 := by simp [daysInMonth]
  have d3 : daysInMonth y 3 = 31 := by simp [daysInMonth]
  have d4 : daysInMonth y 4 = 30 := by simp [daysInMonth]
  have d5 : daysInMonth y 5 = 31 := by simp [daysInMonth]
  have d6 : daysInMonth y 6 = 30 := by simp [daysInMonth]
  have d7 : daysInMonth y 7 = 31 := by simp [daysInMonth]
  have d8 : daysInMonth y 8 = 31 := by simp [daysInMonth]
  have d9 : daysInMonth y 9 = 30 := by simp [daysInMonth]
  have d10 : daysInMonth y 10 = 31 := by simp [daysInMonth]
  have d11 : daysInMonth y 11 = 30 := by simp [daysInMonth]
  have d12 : daysInMonth y 12 = 31 := by simp [daysInMonth]
  rcases Bool.eq_false_or_eq_true (isLeap y) with hL | hL <;>
    simp only [hL, if_true, if_false, Bool.false_eq_true] at d2 ⊢ <;> omega

set_option maxHeartbeats 1000000 in
lemma daysBeforeYear_succ (y : Nat) (hy : 1 ≤ y) :
    daysBeforeYear (y + 1) = daysBeforeYear y + 365 + (if isLeap y then 1 else 0) := by
  unfold daysBeforeYear isLeap
  simp only [Bool.and_eq_true, Bool.or_eq_true, beq_iff_eq, bne_iff_ne]
  split_ifs with h <;> omega

lemma toOrdinal_nextDay (dt : PyDate) (hv : validDate dt) (hy : 1 ≤ dt.year) :
    toOrdinal (nextDay dt) = toOrdinal dt + 1 := by
  obtain ⟨y, m, d⟩ := dt
  obtain ⟨h1, h2, h3, h4⟩ := hv
  dsimp only at h1 h2 h3 h4 hy
  unfold nextDay
  dsimp only
  split_ifs with hd hm
  · unfold toOrdinal
    dsimp only
    omega
  · have hms : monthSum y m = monthSum y (m - 1) + daysInMonth y m := by
      obtain ⟨k, rfl⟩ : ∃ k, m = k + 1 := ⟨m - 1, by omega⟩
      simp only [Nat.add_sub_cancel]
      rfl
    unfold toOrdinal
    dsimp only
    rw [show m + 1 - 1 = m by omega, hms]
    omega
  · have hm12 : m = 12 := by omega
    subst hm12
    have hdim : daysInMonth y 12 = 31 := by simp [daysInMonth]
    have hd31 : d = 31 := by omega
    subst hd31
    unfold toOrdinal
    dsimp only
    have h12 : monthSum y 12 = 365 + (if isLeap y then 1 else 0) := monthSum_twelve y
    have h11 : monthSum y 12 = monthSum y 11 + daysInMonth y 12 := rfl
    have hds := daysBeforeYear_succ y hy
    rw [show (1 : Nat) - 1 = 0 by rfl, show monthSum (y + 1) 0 = 0 from rfl,
        show (12 : Nat) - 1 = 11 by rfl]
    omega

/-- C5: whenever the builder emits an event for a movie — the release
date unpacks, forms a valid calendar date, and (as the emission itself
requires) the `timedelta` addition does not overflow `date.max` — the end
date of the event is exactly one day after its start date: the ordinal
advances by one, across month and year boundaries; in particular start
2026-04-30 yields end 2026-05-01. -/
theorem claim_C5 (ts u : String) (m : Movie) (y mo d : Nat) (start : PyDate)
    (lines : List String)
    (hsplit : splitYMD m.release_date = some (y, mo, d))
    (hdate : mkDate y mo d = some start)
    (hlines : eventLines ts u m = some lines) :
    lines[3]? = some ("DTSTART;VALUE=DATE:" ++ yyyymmdd start)
    ∧ lines[4]? = some ("DTEND;VALUE=DATE:" ++ yyyymmdd (nextDay start))
    ∧ toOrdinal (nextDay start) = toOrdinal start + 1
    ∧ nextDay ⟨2026, 4, 30⟩ = ⟨2026, 5, 1⟩ := by
  have hv := mkDate_valid hdate
  unfold eventLines at hlines
  simp only [hsplit, hdate] at hlines
  cases ha : addOneDay start with
  | none =>
    simp only [ha] at hlines
    exact Option.noConfusion hlines
  | some endd =>
    have hend : endd = nextDay start := by
      unfold addOneDay at ha
      split_ifs at ha
      exact (Option.some.inj ha).symm
    simp only [ha, Option.some.injEq] at hlines
    subst hlines
    subst hend
    exact ⟨rfl, rfl, toOrdinal_nextDay start hv.1 hv.2.1, rfl⟩

theorem claim_C5_witness :
    ((eventLines "20260101T000000Z" "alice"
        ⟨123, "Test Movie", "2026-04-30", "https://www.themoviedb.org/movie/123"⟩).getD
      [])[3]? = some ("DTSTART;VALUE=DATE:" ++ yyyymmdd ⟨2026, 4, 30⟩)
    ∧ ((eventLines "20260101T000000Z" "alice"
        ⟨123, "Test Movie", "2026-04-30", "https://www.themoviedb.org/movie/123"⟩).getD
      [])[4]? = some ("DTEND;VALUE=DATE:" ++ yyyymmdd (nextDay ⟨2026, 4, 30⟩))
    ∧ toOrdinal (nextDay ⟨2026, 4, 30⟩) = toOrdinal ⟨2026, 4, 30⟩ + 1
    ∧ nextDay ⟨2026, 4, 30⟩ = ⟨2026, 5, 1⟩ :=
  claim_C5 "20260101T000000Z" "alice"
    ⟨123, "Test Movie", "2026-04-30", "https://www.themoviedb.org/movie/123"⟩
    2026 4 30 ⟨2026, 4, 30⟩
    ((eventLines "20260101T000000Z" "alice"
        ⟨123, "Test Movie", "2026-04-30", "https://www.themoviedb.org/movie/123"⟩).getD [])
    rfl rfl rfl

/-! ### Facts about strings and the document body -/

lemma strData_append (a b : String) : (a ++ b).data = a.data ++ b.data := rfl

lemma strLen_data (s : String) : s.length = s.data.length := rfl

lemma strLen_append (a b : String) : (a ++ b).length = a.length + b.length := by
  rw [strLen_data, strLen_data, strLen_data, strData_append, List.length_append]

lemma str_data_inj {a b : String} (h : a.data = b.data) : a = b := by
  cases a
  cases b
  exact congrArg String.mk h

lemma escLen (s : String) : (ics_escape s).length = (escSpec s.data).length := by
  rw [strLen_data]
  show (escData s.data).length = _
  rw [escData_eq_escSpec]

lemma joinLines_terminated : ∀ ls : List String, ls ≠ [] →
    joinLines ls ++ "\n" = linesFlat ls := by
  intro ls
  induction ls with
  | nil => intro h; exact absurd rfl h
  | cons l ls ih =>
    intro _
    cases ls with
    | nil =>
      show l ++ "\n" = l ++ "\n" ++ ""
      rw [String.append_empty]
    | cons l2 ls2 =>
      show (l ++ "\n" ++ joinLines (l2 :: ls2)) ++ "\n" = l ++ "\n" ++ linesFlat (l2 :: ls2)
      rw [String.append_assoc, ih (by simp)]

lemma linesFlat_append (a b : List String) :
    linesFlat (a ++ b) = linesFlat a ++ linesFlat b := by
  induction a with
  | nil =>
    show linesFlat b = "" ++ linesFlat b
    rw [String.empty_append]
  | cons l ls ih =>
    show l ++ "\n" ++ linesFlat (ls ++ b) = (l ++ "\n" ++ linesFlat ls) ++ linesFlat b
    rw [ih]
    simp only [String.append_assoc]

lemma append_overlap {α : Type} : ∀ (a b x y : List α), a ++ x = b ++ y →
    (∃ t, b = a ++ t) ∨ (∃ t, a = b ++ t) := by
  intro a
  induction a with
  | nil => intro b x y _; exact Or.inl ⟨b, rfl⟩
  | cons c a ih =>
    intro b x y h
    cases b with
    | nil => exact Or.inr ⟨c :: a, rfl⟩
    | cons c2 b =>
      simp only [List.cons_append, List.cons.injEq] at h
      obtain ⟨rfl, h2⟩ := h
      rcases ih b x y h2 with ⟨t, ht⟩ | ⟨t, ht⟩
      · exact Or.inl ⟨t, by rw [ht, List.cons_append]⟩
      · exact Or.inr ⟨t, by rw [ht, List.cons_append]⟩

lemma eventLoop_cons_inv {ts u : String} {m : Movie} {ms : List Movie}
    {evs : List (List String)} (h : eventLoop ts u (m :: ms) = some evs) :
    ∃ e es, eventLines ts u m = some e ∧ eventLoop ts u ms = some es ∧ evs = e :: es := by
  unfold eventLoop at h
  cases he : eventLines ts u m with
  | none => rw [he] at h; simp at h
  | some e =>
    cases hes : eventLoop ts u ms with
    | none => rw [he, hes] at h; simp at h
    | some es =>
      rw [he, hes] at h
      refine ⟨e, es, rfl, rfl, ?_⟩
      simpa using h.symm

lemma eventLines_len_sym {ts uA uB : String} {m : Movie} {e1 e2 : List String}
    (h1 : eventLines ts uA m = some e1) (h2 : eventLines ts uB m = some e2) :
    (linesFlat e1).length + (ics_escape uB).length
      = (linesFlat e2).length + (ics_escape uA).length := by
  unfold eventLines at h1 h2
  cases hs : splitYMD m.release_date with
  | none => rw [hs] at h1; simp at h1
  | some t =>
    obtain ⟨y, mo, d⟩ := t
    simp only [hs] at h1 h2
    cases hd : mkDate y mo d with
    | none =>
      simp only [hd] at h1
      exact Option.noConfusion h1
    | some start =>
      simp only [hd] at h1 h2
      cases ha : addOneDay start with
      | none =>
        simp only [ha] at h1
        exact Option.noConfusion h1
      | some endd =>
        simp only [ha, Option.some.injEq] at h1 h2
        subst h1
        subst h2
        simp only [linesFlat, event_uid, ics_escape_append, strLen_append]
        omega

lemma eventLoop_len_sym {ts uA uB : String} : ∀ (ms : List Movie)
    {evsA evsB : List (List String)},
    eventLoop ts uA ms = some evsA → eventLoop ts uB ms = some evsB →
    (linesFlat (concatLines evsA)).length + ms.length * (ics_escape uB).length
      = (linesFlat (concatLines evsB)).length + ms.length * (ics_escape uA).length := by
  intro ms
  induction ms with
  | nil =>
    intro evsA evsB hA hB
    have hA2 : evsA = [] := (Option.some.inj hA).symm
    have hB2 : evsB = [] := (Option.some.inj hB).symm
    subst hA2
    subst hB2
    simp
  | cons m ms ih =>
    intro evsA evsB hA hB
    obtain ⟨e1, es1, he1, hes1, rfl⟩ := eventLoop_cons_inv hA
    obtain ⟨e2, es2, he2, hes2, rfl⟩ := eventLoop_cons_inv hB
    have hone := eventLines_len_sym he1 he2
    have hrec := ih hes1 hes2
    simp only [concatLines, linesFlat_append, strLen_append, List.length_cons,
      Nat.succ_mul] at *
    omega

lemma linesFlat_calHeader_data (u : String) (rest1 : List String) :
    (linesFlat (calHeader u ++ rest1)).data
      = "BEGIN:VCALENDAR".data ++ ("\n".data ++ ("VERSION:2.0".data ++ ("\n".data
        ++ ("PRODID:-//Film Release Tracker//".data ++ (u.data ++ ("//EN".data
        ++ ("\n".data ++ (linesFlat (["CALSCALE:GREGORIAN", "METHOD:PUBLISH",
            "X-WR-CALNAME:" ++ u ++ sQ ++ "s Film Releases",
            "X-WR-CALDESC:UK theatrical releases tracked by " ++ u] ++ rest1)).data))))))) := by
  simp only [calHeader, List.cons_append, linesFlat, strData_append, List.append_assoc]

lemma linesFlat_calHeader_len (u : String) :
    (linesFlat (calHeader u)).length = 3 * u.length + (linesFlat (calHeader "")).length := by
  have h0 : ("" : String).length = 0 := rfl
  simp only [calHeader, linesFlat, strLen_append, h0]
  omega

lemma build_some_eq {movies : List Movie} {ts u : String} {evs : List (List String)}
    (h : eventLoop ts u movies = some evs) :
    build_ics_events movies ts u
      = some (joinLines (calHeader u ++ concatLines evs ++ ["END:VCALENDAR"]) ++ "\n") := by
  unfold build_ics_events
  rw [h]

/-! ### The claim about user separation -/

/-- C8: two builds on the same movies and timestamp that differ only in
the user identifier produce different documents, and the event identifier
of every catalog id differs between the two users. -/
theorem claim_C8 (movies : List Movie) (ts uA uB : String) (hne : uA ≠ uB)
    (hA : (build_ics_events movies ts uA).isSome = true)
    (hB : (build_ics_events movies ts uB).isSome = true) :
    build_ics_events movies ts uA ≠ build_ics_events movies ts uB
    ∧ ∀ i : Nat, event_uid i uA ≠ event_uid i uB := by
  constructor
  · intro hEq
    obtain ⟨evsA, hLA⟩ : ∃ evs, eventLoop ts uA movies = some evs := by
      unfold build_ics_events at hA
      cases h : eventLoop ts uA movies with
      | none => rw [h] at hA; simp at hA
      | some evs => exact ⟨evs, rfl⟩
    obtain ⟨evsB, hLB⟩ : ∃ evs, eventLoop ts uB movies = some evs := by
      unfold build_ics_events at hB
      cases h : eventLoop ts uB movies with
      | none => rw [h] at hB; simp at hB
      | some evs => exact ⟨evs, rfl⟩
    rw [build_some_eq hLA, build_some_eq hLB] at hEq
    have hEq' := Option.some.inj hEq
    rw [joinLines_terminated _ (by simp [calHeader]),
        joinLines_terminated _ (by simp [calHeader]), List.append_assoc,
        List.append_assoc] at hEq'
    have hLen := congrArg String.length hEq'
    simp only [linesFlat_append, strLen_append] at hLen
    rw [linesFlat_calHeader_len uA, linesFlat_calHeader_len uB] at hLen
    have hSym := eventLoop_len_sym movies hLA hLB
    have hData := congrArg String.data hEq'
    rw [linesFlat_calHeader_data uA (concatLines evsA ++ ["END:VCALENDAR"]),
        linesFlat_calHeader_data uB (concatLines evsB ++ ["END:VCALENDAR"])] at hData
    have c1 := List.append_cancel_left hData
    have c2 := List.append_cancel_left c1
    have c3 := List.append_cancel_left c2
    have c4 := List.append_cancel_left c3
    have c5 := List.append_cancel_left c4
    have e1 : uA.length = uA.data.length := rfl
    have e2 : uB.length = uB.data.length := rfl
    rcases append_overlap _ _ _ _ c5 with ⟨t, ht⟩ | ⟨t, ht⟩
    · have hlB : uB.data.length = uA.data.length + t.length := by
        rw [ht, List.length_append]
      have hesc : (ics_escape uB).length
          = (ics_escape uA).length + (escSpec t).length := by
        rw [escLen, escLen, ht, escSpec_append, List.length_append]
      have hmul : movies.length * (ics_escape uB).length
          = movies.length * (ics_escape uA).length
            + movies.length * (escSpec t).length := by
        rw [hesc, Nat.mul_add]
      have htle := length_le_escSpec t
      have ht0 : t.length = 0 := by omega
      rw [List.length_eq_zero] at ht0
      rw [ht0, List.append_nil] at ht
      exact hne (str_data_inj ht).symm
    · have hlA : uA.data.length = uB.data.length + t.length := by
        rw [ht, List.length_append]
      have hesc : (ics_escape uA).length
          = (ics_escape uB).length + (escSpec t).length := by
        rw [escLen, escLen, ht, escSpec_append, List.length_append]
      have hmul : movies.length * (ics_escape uA).length
          = movies.length * (ics_escape uB).length
            + movies.length * (escSpec t).length := by
        rw [hesc, Nat.mul_add]
      have htle := length_le_escSpec t
      have ht0 : t.length = 0 := by omega
      rw [List.length_eq_zero] at ht0
      rw [ht0, List.append_nil] at ht
      exact hne (str_data_inj ht)
  · intro i h
    have hd := congrArg String.data h
    simp only [event_uid, strData_append, List.append_assoc] at hd
    have h1 := List.append_cancel_left hd
    have h2 := List.append_cancel_left h1
    have h3 := List.append_cancel_left h2
    have h4 := List.append_cancel_right h3
    exact hne (str_data_inj h4)

theorem claim_C8_witness :
    build_ics_events
        [⟨123, "Test Movie", "2026-04-17", "https://www.themoviedb.org/movie/123"⟩]
        "20260101T000000Z" "alice"
      ≠ build_ics_events
          [⟨123, "Test Movie", "2026-04-17", "https://www.themoviedb.org/movie/123"⟩]
          "20260101T000000Z" "bob" :=
  (claim_C8 [⟨123, "Test Movie", "2026-04-17", "https://www.themoviedb.org/movie/123"⟩]
    "20260101T000000Z" "alice" "bob" (by decide) rfl rfl).1

/-! ### The claim about the optional user identifier -/

/-- C9: the user identifier of the Calendar Builder is optional: supplying no
user identifier runs the generic (non-personalized) builder, whose event
identifiers have the form `"tmdb-<catalogId>@film-release-tracker"` — no
user segment — and whose header lines carry no user identifier. -/
theorem claim_C9 :
    (∀ (movies : List Movie) (ts : String),
      build_spec movies ts none = build_ics_events_nouser movies ts)
    ∧ (∀ i : Nat, event_uid_nouser i = "tmdb-" ++ toString i ++ "@film-release-tracker")
    ∧ calHeader_nouser = ["BEGIN:VCALENDAR", "VERSION:2.0",
        "PRODID:-//Film Release Tracker//EN", "CALSCALE:GREGORIAN", "METHOD:PUBLISH"]
    ∧ (∀ (ts : String) (m : Movie) (lines : List String),
        eventLines_nouser ts m = some lines →
          lines[1]? = some ("UID:" ++ ics_escape (event_uid_nouser m.tmdb_id))) := by
  refine ⟨fun _ _ => rfl, fun _ => rfl, rfl, ?_⟩
  intro ts m lines h
  unfold eventLines_nouser at h
  split at h
  · exact absurd h (by simp)
  · split at h
    · exact absurd h (by simp)
    · split at h
      · exact absurd h (by simp)
      · obtain rfl := Option.some.inj h
        rfl

theorem claim_C9_witness :
    ((eventLines_nouser "20260101T000000Z"
        ⟨123, "Test Movie", "2026-04-17", "https://www.themoviedb.org/movie/123"⟩).getD [])[1]?
      = some ("UID:" ++ ics_escape (event_uid_nouser 123)) :=
  claim_C9.2.2.2 "20260101T000000Z"
    ⟨123, "Test Movie", "2026-04-17", "https://www.themoviedb.org/movie/123"⟩
    ((eventLines_nouser "20260101T000000Z"
        ⟨123, "Test Movie", "2026-04-17", "https://www.themoviedb.org/movie/123"⟩).getD [])
    rfl

end Films
